import Mathlib

/-!
Verification of the scheduling core of the ai-scheduler project.

The program under study is `solver.py`, whose single function
`generate_schedule(employees, tasks, days, shifts, preferences, rules)`
builds a CP-SAT 0/1 model (one boolean variable per
(employee id, day, shift, task id) quadruple, five families of hard
constraints, and a linear priority-plus-preference objective), calls the
solver, and extracts an ordered schedule list plus an unscheduled-task
list from the solver's assignment.

Shallow embedding used here:
- employee / task records mirror the dictionaries produced by
  `get_solver_data` in `app.py` (`id`, `name`, `skills`,
  `unavailable_days` for employees; `id`, `name`, `required_skill`,
  `priority` for tasks);
- the preference dictionary is embedded by the only operation the code
  performs on it, `preferences.get((emp_id, task_id), 0)`, i.e. as a
  total function `Nat → Nat → Int`;
- the rule dictionary is an association list; `rules.get('max_shifts_per_week', 7)`
  becomes `maxShifts`;
- the call `solver.Solve(model)` is the one external component: it is
  modelled by a `SolverResult` (a status flag `ok`, true exactly when the
  Python status is OPTIMAL or FEASIBLE, plus the variable valuation
  `solver.Value`), and theorems take as hypothesis the CP-SAT contract
  that any OPTIMAL/FEASIBLE valuation satisfies every posted constraint
  (`Feasible`), and, where a claim needs it, maximises the posted
  objective (`OptimalResult`);
- the extraction code (lines 80-103 of `solver.py`) is embedded
  concretely and executably by `extractSchedule` / `generate_schedule`.

All sums mirror the iteration order of the corresponding Python loops.
-/

namespace Scheduler

/-- An employee record as produced by `get_solver_data` in `app.py`:
`{'id': …, 'name': …, 'skills': […], 'unavailable_days': […]}`. -/
structure Employee where
  id : Nat
  name : String
  skills : List String
  unavailable_days : List String
deriving DecidableEq, Repr

/-- A task record as produced by `get_solver_data` in `app.py`:
`{'id': …, 'name': …, 'required_skill': …, 'priority': …}`. -/
structure Task where
  id : Nat
  name : String
  required_skill : String
  priority : Int
deriving DecidableEq, Repr

/-- One element of the `schedule` list built at lines 88-94 of `solver.py`. -/
structure ScheduleEntry where
  day : String
  shift : String
  employee_id : Nat
  employee_name : String
  task_id : Nat
  task_name : String
deriving DecidableEq, Repr

/-- A 0/1 valuation of the decision variables: the value
`solver.Value(assignment[(e, d, s, t)])` as a boolean, keyed the way the
Python dictionary `assignment` is keyed (employee id, day, shift, task id). -/
def Valuation : Type := Nat → String → String → Nat → Bool

/-- The 0/1 value of one decision variable, as a natural number.  Mirrors
the contribution of a single `assignment[...]` variable to the Python sums. -/
def indicator (v : Valuation) (e : Nat) (d s : String) (t : Nat) : Nat :=
  if v e d s t then 1 else 0

/-- Sum of a task's variables over all employees, days and shifts, in the
iteration order of the generator at lines 22-25 of `solver.py`
(`for emp … for day … for shift …`).  `AddAtMostOne` bounds this sum by 1. -/
def taskPlacementCount (employees : List Employee) (days shifts : List String)
    (v : Valuation) (taskId : Nat) : Nat :=
  (employees.map fun emp =>
    ((days.map fun day =>
      ((shifts.map fun shift => indicator v emp.id day shift taskId).sum)).sum)).sum

/-- Sum of one employee-slot's variables over all tasks, mirroring the
generator at lines 47-49 of `solver.py`. -/
def slotTaskCount (tasks : List Task) (v : Valuation)
    (empId : Nat) (day shift : String) : Nat :=
  (tasks.map fun task => indicator v empId day shift task.id).sum

/-- Sum of all of one employee's variables over the whole grid, in the
iteration order of lines 55-58 of `solver.py` (`for day … for shift …
for task …`). -/
def weeklyShiftTotal (days shifts : List String) (tasks : List Task)
    (v : Valuation) (empId : Nat) : Nat :=
  (days.map fun day =>
    ((shifts.map fun shift =>
      ((tasks.map fun task => indicator v empId day shift task.id).sum)).sum)).sum

/-- The weekly cap read at line 52 of `solver.py`:
`rules.get('max_shifts_per_week', 7)` — the default when the key is
absent is the literal 7. -/
def maxShifts (rules : List (String × Int)) : Int :=
  (rules.lookup "max_shifts_per_week").getD 7

/-- The conjunction of every hard constraint posted on the CP-SAT model by
`generate_schedule` (lines 20-59 of `solver.py`), evaluated on a valuation:

1. each task is assigned at most once (lines 21-25);
2. a variable whose task skill the employee lacks is zero (lines 28-33);
3. a variable on a listed unavailable day is zero, where the Python loop
   only acts when that day is also in the `days` grid (lines 36-41);
4. each employee-slot holds at most one task (lines 44-49);
5. each employee's total over the grid is bounded by the weekly cap
   (lines 51-59).

Any valuation returned by CP-SAT with status OPTIMAL or FEASIBLE
satisfies all five. -/
def Feasible (employees : List Employee) (tasks : List Task)
    (days shifts : List String) (rules : List (String × Int))
    (v : Valuation) : Prop :=
  (∀ task ∈ tasks, taskPlacementCount employees days shifts v task.id ≤ 1) ∧
  (∀ emp ∈ employees, ∀ day ∈ days, ∀ shift ∈ shifts, ∀ task ∈ tasks,
      task.required_skill ∉ emp.skills → v emp.id day shift task.id = false) ∧
  (∀ emp ∈ employees, ∀ day ∈ emp.unavailable_days, day ∈ days →
      ∀ shift ∈ shifts, ∀ task ∈ tasks, v emp.id day shift task.id = false) ∧
  (∀ emp ∈ employees, ∀ day ∈ days, ∀ shift ∈ shifts,
      slotTaskCount tasks v emp.id day shift ≤ 1) ∧
  (∀ emp ∈ employees,
      (weeklyShiftTotal days shifts tasks v emp.id : Int) ≤ maxShifts rules)

instance (employees : List Employee) (tasks : List Task)
    (days shifts : List String) (rules : List (String × Int)) (v : Valuation) :
    Decidable (Feasible employees tasks days shifts rules v) := by
  unfold Feasible
  infer_instance

/-- The objective posted at lines 63-73 of `solver.py`: the sum over all
variables of `indicator * task.priority`, plus the sum over all variables
of `indicator * preferences.get((emp_id, task_id), 0)`, both iterated
`for emp … for day … for shift … for task …`. -/
def objective (employees : List Employee) (tasks : List Task)
    (days shifts : List String) (preferences : Nat → Nat → Int)
    (v : Valuation) : Int :=
  (employees.map fun emp =>
    ((days.map fun day =>
      ((shifts.map fun shift =>
        ((tasks.map fun task =>
          (indicator v emp.id day shift task.id : Int) * task.priority).sum)).sum)).sum)).sum
  +
  (employees.map fun emp =>
    ((days.map fun day =>
      ((shifts.map fun shift =>
        ((tasks.map fun task =>
          (indicator v emp.id day shift task.id : Int) *
            preferences emp.id task.id).sum)).sum)).sum)).sum

/-- The outcome of `solver.Solve(model)` at line 77 of `solver.py`:
`ok` is the test `status == OPTIMAL or status == FEASIBLE` performed at
line 82, and `val` is `solver.Value` on the decision variables. -/
structure SolverResult where
  ok : Bool
  val : Valuation

/-- CP-SAT's soundness contract for this model: whenever the status is
OPTIMAL or FEASIBLE, the returned valuation satisfies every posted
constraint. -/
def ValidResult (employees : List Employee) (tasks : List Task)
    (days shifts : List String) (rules : List (String × Int))
    (res : SolverResult) : Prop :=
  res.ok = true → Feasible employees tasks days shifts rules res.val

/-- CP-SAT's contract when it proves optimality: the status is
OPTIMAL/FEASIBLE, the valuation satisfies every posted constraint, and no
feasible valuation scores a higher objective. -/
def OptimalResult (employees : List Employee) (tasks : List Task)
    (days shifts : List String) (preferences : Nat → Nat → Int)
    (rules : List (String × Int)) (res : SolverResult) : Prop :=
  res.ok = true ∧
  Feasible employees tasks days shifts rules res.val ∧
  ∀ w : Valuation, Feasible employees tasks days shifts rules w →
    objective employees tasks days shifts preferences w ≤
      objective employees tasks days shifts preferences res.val

/-- The dictionary appended to `schedule` at lines 88-94 of `solver.py`. -/
def mkEntry (day shift : String) (emp : Employee) (task : Task) : ScheduleEntry :=
  { day := day, shift := shift,
    employee_id := emp.id, employee_name := emp.name,
    task_id := task.id, task_name := task.name }

/-- The schedule list built by the nested loops at lines 83-95 of
`solver.py`: iterate days, then shifts, then employees, then tasks, and
emit an entry for every variable the solver set to 1. -/
def extractSchedule (employees : List Employee) (tasks : List Task)
    (days shifts : List String) (v : Valuation) : List ScheduleEntry :=
  days.flatMap fun day =>
    shifts.flatMap fun shift =>
      employees.flatMap fun emp =>
        tasks.filterMap fun task =>
          if v emp.id day shift task.id then some (mkEntry day shift emp task)
          else none

/-- The embedding of `generate_schedule` (lines 80-103 of `solver.py`),
with the solver call abstracted into the `res` argument.  When the status
is OPTIMAL or FEASIBLE it returns the extracted schedule together with
`[t for t in tasks if t['id'] in all_task_ids - assigned_task_ids]`;
otherwise it returns `([], tasks)`. -/
def generate_schedule (employees : List Employee) (tasks : List Task)
    (days shifts : List String) (preferences : Nat → Nat → Int)
    (rules : List (String × Int)) (res : SolverResult) :
    List ScheduleEntry × List Task :=
  if res.ok then
    let schedule := extractSchedule employees tasks days shifts res.val
    let assigned_task_ids := schedule.map (fun ent => ent.task_id)
    let all_task_ids := tasks.map (fun t => t.id)
    let unscheduled_tasks := tasks.filter fun t =>
      all_task_ids.contains t.id && !(assigned_task_ids.contains t.id)
    (schedule, unscheduled_tasks)
  else
    ([], tasks)

/-- The fixed day grid from `get_solver_data` in `app.py`. -/
def DAYS : List String := ["Mon", "Tue", "Wed", "Thu", "Fri", "Sat", "Sun"]

/-- The fixed shift grid from `get_solver_data` in `app.py`. -/
def SHIFTS : List String := ["Morning", "Evening"]

/-- The preference map obtained from `preferences` by raising the score of
the single pair `(empId, taskId)` by `delta` and leaving every other pair
unchanged (the external collaborator's preference-update operation). -/
def bumpPref (preferences : Nat → Nat → Int) (empId taskId : Nat) (delta : Int) :
    Nat → Nat → Int :=
  fun e t => if e = empId ∧ t = taskId then preferences e t + delta else preferences e t

/-- The full grid of possible schedule entries enumerated in the canonical
output order of the extraction loops at lines 83-86 of `solver.py`:
day-major, then shift, then employee, then task, each following its input
sequence's order. -/
def canonicalGrid (employees : List Employee) (tasks : List Task)
    (days shifts : List String) : List ScheduleEntry :=
  days.flatMap fun day =>
    shifts.flatMap fun shift =>
      employees.flatMap fun emp =>
        tasks.map fun task => mkEntry day shift emp task

/-- Scenario A employee: skills `["A"]`, no unavailable days. -/
def scenAEmployee : Employee := { id := 1, name := "E1", skills := ["A"], unavailable_days := [] }

/-- Scenario A task: requires skill `"A"`, priority 1. -/
def scenATask : Task := { id := 1, name := "T1", required_skill := "A", priority := 1 }

/-- Scenario A preference map: empty, i.e. every lookup defaults to 0. -/
def scenAPrefs : Nat → Nat → Int := fun _ _ => 0

/-- Scenario A rule set: `max_shifts_per_week = 7`. -/
def scenARules : List (String × Int) := [("max_shifts_per_week", 7)]

/-- The valuation that places Scenario A's task on Monday morning. -/
def scenAVal : Valuation :=
  fun e d s t => e == 1 && d == "Mon" && s == "Morning" && t == 1

/-- A skill-"A" employee used to probe the default weekly cap. -/
def cxEmployee : Employee := { id := 1, name := "E1", skills := ["A"], unavailable_days := [] }

/-- Eight skill-"A" tasks of priority 1, ids 1 through 8. -/
def cxTasks : List Task :=
  [{ id := 1, name := "T1", required_skill := "A", priority := 1 },
   { id := 2, name := "T2", required_skill := "A", priority := 1 },
   { id := 3, name := "T3", required_skill := "A", priority := 1 },
   { id := 4, name := "T4", required_skill := "A", priority := 1 },
   { id := 5, name := "T5", required_skill := "A", priority := 1 },
   { id := 6, name := "T6", required_skill := "A", priority := 1 },
   { id := 7, name := "T7", required_skill := "A", priority := 1 },
   { id := 8, name := "T8", required_skill := "A", priority := 1 }]

/-- A valuation giving employee 1 eight distinct placements, one per task,
spread over the first eight slots of the week. -/
def cxVal : Valuation :=
  fun e d s t =>
    e == 1 &&
      [("Mon", "Morning", 1), ("Mon", "Evening", 2),
       ("Tue", "Morning", 3), ("Tue", "Evening", 4),
       ("Wed", "Morning", 5), ("Wed", "Evening", 6),
       ("Thu", "Morning", 7), ("Thu", "Evening", 8)].contains (d, s, t)

/-- A malformed task in the sense of the spec's error taxonomy: its
required-skill field is empty and its priority is negative. -/
def badTask : Task := { id := 1, name := "Bad", required_skill := "", priority := -3 }

/-- The all-zero valuation (every decision variable 0). -/
def allFalseVal : Valuation := fun _ _ _ _ => false

/-- A solver outcome with OPTIMAL/FEASIBLE status and the all-zero valuation. -/
def trivialResult : SolverResult := { ok := true, val := allFalseVal }

/-- The employee list with every out-of-grid entry of each employee's
unavailable-day list removed (only entries also present in `days` are kept). -/
def pruneUnavailable (employees : List Employee) (days : List String) : List Employee :=
  employees.map fun e =>
    { e with unavailable_days := e.unavailable_days.filter fun d => days.contains d }

/-- Two nested list sums over independent index lists commute. -/
theorem sum_comm_map {α β : Type} (l : List α) (m : List β) (f : α → β → Nat) :
    (l.map fun x => (m.map fun y => f x y).sum).sum
      = (m.map fun y => (l.map fun x => f x y).sum).sum := by
  induction l with
  | nil =>
      simp only [List.map_nil, List.sum_nil]
      exact (List.sum_eq_zero (by simp)).symm
  | cons a l ih => simp [List.sum_map_add, ih]

/-- Counting in a `filterMap` whose function is an if-then-else between
`some` and `none`. -/
theorem countP_filterMap_ite {α β : Type} (p : β → Bool) (c : α → Bool)
    (m : α → β) (l : List α) :
    ((l.filterMap fun a => if c a then some (m a) else none).countP p)
      = l.countP fun a => c a && p (m a) := by
  induction l with
  | nil => simp
  | cons a l ih =>
      by_cases hc : c a = true
      · simp [List.filterMap_cons, hc, List.countP_cons, ih]
      · simp [List.filterMap_cons, hc, List.countP_cons, ih,
          Bool.not_eq_true _ ▸ hc]

/-- A conjunction with a predicate-independent boolean factors out of a
count. -/
theorem countP_and_const {α : Type} (l : List α) (c : α → Bool) (b : Bool) :
    (l.countP fun a => c a && b) = if b then l.countP c else 0 := by
  cases b <;> simp

/-- Counting tasks that satisfy an id-determined test and whose id equals a
fixed value. -/
theorem countP_and_beq (l : List Task) (tid : Nat) (c : Nat → Bool) :
    (l.countP fun t => c t.id && (t.id == tid))
      = if c tid then l.countP (fun t => t.id == tid) else 0 := by
  induction l with
  | nil => simp
  | cons t l ih =>
      rw [List.countP_cons, List.countP_cons, ih]
      by_cases ht : t.id = tid
      · subst ht
        cases hct : c t.id <;> simp [hct]
      · have hbeq : (t.id == tid) = false := by simp [ht]
        cases hct : c tid <;> simp [hbeq, hct]

/-- A `countP` is the sum of 0/1 indicators. -/
theorem countP_eq_sum_ite {α : Type} (l : List α) (c : α → Bool) :
    l.countP c = (l.map fun a => if c a then 1 else 0).sum := by
  induction l with
  | nil => simp
  | cons a l ih =>
      rw [List.countP_cons, List.map_cons, List.sum_cons, ih]
      omega

/-- Summing an id-keyed indicator over employees with pairwise-distinct ids
picks out exactly the term of the given employee id. -/
theorem sum_map_single_id (employees : List Employee) (empId : Nat)
    (hnd : (employees.map fun e => e.id).Nodup)
    (hmem : empId ∈ employees.map fun e => e.id) (k : Nat) :
    (employees.map fun e => if e.id == empId then k else 0).sum = k := by
  induction employees with
  | nil => simp at hmem
  | cons e es ih =>
      rw [List.map_cons, List.nodup_cons] at hnd
      rw [List.map_cons, List.mem_cons] at hmem
      rw [List.map_cons, List.sum_cons]
      by_cases h : e.id = empId
      · subst h
        have hz : (es.map fun e' => if e'.id == e.id then k else 0).sum = 0 := by
          apply List.sum_eq_zero
          intro x hx
          rcases List.mem_map.mp hx with ⟨e', he', rfl⟩
          have hne : e'.id ≠ e.id := by
            intro hcontra
            exact hnd.1 (hcontra ▸ List.mem_map.mpr ⟨e', he', rfl⟩)
          simp [hne]
        rw [hz, if_pos (by simp), add_zero]
      · have hmem' : empId ∈ es.map fun e' => e'.id := by
          rcases hmem with h1 | h1
          · exact absurd h1.symm h
          · exact h1
        rw [ih hnd.2 hmem', if_neg (by simp [h]), zero_add]

/-- Pointwise sublists flatMap to a sublist. -/
theorem flatMap_sublist_flatMap {α β : Type} (l : List α) (f g : α → List β)
    (h : ∀ x ∈ l, (f x).Sublist (g x)) : (l.flatMap f).Sublist (l.flatMap g) := by
  induction l with
  | nil => simp
  | cons a l ih =>
      rw [List.flatMap_cons, List.flatMap_cons]
      exact (h a (List.mem_cons_self a l)).append (ih fun x hx => h x (List.mem_cons_of_mem a hx))

/-- A `filterMap` through an if-then-else is a sublist of the corresponding
full `map`. -/
theorem filterMap_ite_sublist_map {α β : Type} (c : α → Bool) (m : α → β) (l : List α) :
    (l.filterMap fun a => if c a then some (m a) else none).Sublist (l.map m) := by
  induction l with
  | nil => simp
  | cons a l ih =>
      by_cases hc : c a = true
      · rw [List.map_cons]
        simpa [List.filterMap_cons, hc] using ih.cons₂ (m a)
      · rw [List.map_cons]
        have heq : ((a :: l).filterMap fun x => if c x then some (m x) else none)
            = l.filterMap fun x => if c x then some (m x) else none := by
          simp [List.filterMap_cons, hc]
        rw [heq]
        exact ih.cons (m a)

/-- Membership in the extracted schedule, unfolded to the generating
quadruple. -/
theorem mem_extractSchedule {employees : List Employee} {tasks : List Task}
    {days shifts : List String} {v : Valuation} {ent : ScheduleEntry} :
    ent ∈ extractSchedule employees tasks days shifts v ↔
      ∃ day ∈ days, ∃ shift ∈ shifts, ∃ emp ∈ employees, ∃ task ∈ tasks,
        v emp.id day shift task.id = true ∧ ent = mkEntry day shift emp task := by
  simp only [extractSchedule, List.mem_flatMap, List.mem_filterMap,
    Option.ite_none_right_eq_some, Option.some.injEq]
  constructor
  · rintro ⟨d, hd, s, hs, e, he, t, ht, hv, hent⟩
    exact ⟨d, hd, s, hs, e, he, t, ht, hv, hent.symm⟩
  · rintro ⟨d, hd, s, hs, e, he, t, ht, hv, hent⟩
    exact ⟨d, hd, s, hs, e, he, t, ht, hv, hent.symm⟩

/-- Shifting the innermost index list of a triple sum to the outside. -/
theorem sum_comm_three {α β γ : Type} (l : List α) (m : List β) (n : List γ)
    (f : α → β → γ → Nat) :
    (l.map fun x => ((m.map fun y => ((n.map fun z => f x y z).sum)).sum)).sum
      = (m.map fun y => ((n.map fun z => ((l.map fun x => f x y z).sum)).sum)).sum := by
  rw [sum_comm_map l m]
  refine congrArg List.sum (List.map_congr_left ?_)
  intro y _
  exact sum_comm_map l n fun x z => f x y z

/-- On OPTIMAL/FEASIBLE status, the first component returned by
`generate_schedule` is the extracted schedule. -/
theorem generate_schedule_fst_ok (employees : List Employee) (tasks : List Task)
    (days shifts : List String) (preferences : Nat → Nat → Int)
    (rules : List (String × Int)) (res : SolverResult) (hok : res.ok = true) :
    (generate_schedule employees tasks days shifts preferences rules res).1
      = extractSchedule employees tasks days shifts res.val := by
  simp [generate_schedule, hok]

/-- On OPTIMAL/FEASIBLE status, the second component returned by
`generate_schedule` is the list of tasks whose id received no placement. -/
theorem generate_schedule_snd_ok (employees : List Employee) (tasks : List Task)
    (days shifts : List String) (preferences : Nat → Nat → Int)
    (rules : List (String × Int)) (res : SolverResult) (hok : res.ok = true) :
    (generate_schedule employees tasks days shifts preferences rules res).2
      = tasks.filter fun t =>
          ((tasks.map fun t' => t'.id).contains t.id) &&
            !(((extractSchedule employees tasks days shifts res.val).map
                fun ent => ent.task_id).contains t.id) := by
  simp [generate_schedule, hok]

/-- On any other status, `generate_schedule` returns the empty schedule and
the whole original task list. -/
theorem generate_schedule_not_ok (employees : List Employee) (tasks : List Task)
    (days shifts : List String) (preferences : Nat → Nat → Int)
    (rules : List (String × Int)) (res : SolverResult) (hok : res.ok = false) :
    generate_schedule employees tasks days shifts preferences rules res = ([], tasks) := by
  simp [generate_schedule, hok]

/-- With pairwise-distinct task ids, the number of schedule entries carrying
a given task id equals the model's placement sum for that task. -/
theorem countP_schedule_by_task (employees : List Employee) (tasks : List Task)
    (days shifts : List String) (v : Valuation) (tid : Nat)
    (hnd : (tasks.map fun t => t.id).Nodup)
    (hmem : tid ∈ tasks.map fun t => t.id) :
    ((extractSchedule employees tasks days shifts v).countP
        fun ent => ent.task_id == tid)
      = taskPlacementCount employees days shifts v tid := by
  have hone : (tasks.countP fun t => t.id == tid) = 1 := by
    have h1 : (tasks.countP fun t => t.id == tid)
        = List.count tid (tasks.map fun t => t.id) := by
      rw [List.count_eq_countP, List.countP_map]
      rfl
    rw [h1]
    exact List.count_eq_one_of_mem hnd hmem
  unfold extractSchedule
  simp only [List.countP_flatMap, Function.comp_def, countP_filterMap_ite, mkEntry,
    countP_and_beq, hone]
  unfold taskPlacementCount
  exact (sum_comm_three employees days shifts
    fun e d s => indicator v e.id d s tid).symm

/-- With pairwise-distinct employee ids, the number of schedule entries
carrying a given employee id equals the model's weekly total for that
employee. -/
theorem countP_schedule_by_employee (employees : List Employee) (tasks : List Task)
    (days shifts : List String) (v : Valuation) (empId : Nat)
    (hnd : (employees.map fun e => e.id).Nodup)
    (hmem : empId ∈ employees.map fun e => e.id) :
    ((extractSchedule employees tasks days shifts v).countP
        fun ent => ent.employee_id == empId)
      = weeklyShiftTotal days shifts tasks v empId := by
  unfold extractSchedule
  simp only [List.countP_flatMap, Function.comp_def, countP_filterMap_ite, mkEntry,
    countP_and_const]
  have hcong : ∀ d s : String,
      (employees.map fun emp =>
        if emp.id == empId then (tasks.countP fun t => v emp.id d s t.id) else 0)
      = employees.map fun emp =>
        if emp.id == empId then (tasks.countP fun t => v empId d s t.id) else 0 := by
    intro d s
    apply List.map_congr_left
    intro e _
    by_cases h : e.id = empId
    · rw [h]
    · simp [h]
  simp only [hcong]
  simp only [sum_map_single_id employees empId hnd hmem]
  unfold weeklyShiftTotal
  simp only [countP_eq_sum_ite]
  rfl

/-- C1, counterexample.  The claim says that with no `max_shifts_per_week`
entry the applied weekly cap is `|days| * |shifts| = 14`; but
`rules.get('max_shifts_per_week', 7)` at line 52 of `solver.py` defaults to
7, and the difference is observable: a valuation giving one employee eight
placements violates the constraints under the empty rule map, although the
same valuation satisfies them when the cap is set to 14 explicitly. -/
theorem claim1_counterexample :
    maxShifts [] ≠ (DAYS.length * SHIFTS.length : Int) ∧
    ¬ Feasible [cxEmployee] cxTasks DAYS SHIFTS [] cxVal ∧
    Feasible [cxEmployee] cxTasks DAYS SHIFTS [("max_shifts_per_week", 14)] cxVal := by
  refine ⟨by decide, by decide, by decide⟩

/-- C1, amended.  If the rules map contains no `max_shifts_per_week` entry,
the weekly cap applied to every employee is the literal default 7 (the
number of days, not the 14 slots of the week): the cap constant is 7 and
the posted constraints coincide with those for an explicit cap of 7. -/
theorem claim1_default_cap (rules : List (String × Int))
    (hnone : rules.lookup "max_shifts_per_week" = none)
    (employees : List Employee) (tasks : List Task) (days shifts : List String)
    (v : Valuation) :
    maxShifts rules = 7 ∧
    (Feasible employees tasks days shifts rules v ↔
      Feasible employees tasks days shifts [("max_shifts_per_week", 7)] v) := by
  have hm : maxShifts rules = 7 := by rw [maxShifts, hnone]; rfl
  have hm7 : maxShifts [("max_shifts_per_week", (7:Int))] = 7 := by decide
  refine ⟨hm, ?_⟩
  unfold Feasible
  rw [hm, hm7]

/-- C1, witness for the amended theorem at the empty rule map. -/
theorem claim1_default_cap_witness :
    (List.lookup "max_shifts_per_week" ([] : List (String × Int)) = none) ∧
    (maxShifts [] = 7 ∧
      (Feasible [cxEmployee] cxTasks DAYS SHIFTS [] allFalseVal ↔
        Feasible [cxEmployee] cxTasks DAYS SHIFTS [("max_shifts_per_week", 7)] allFalseVal)) :=
  ⟨rfl, claim1_default_cap [] rfl [cxEmployee] cxTasks DAYS SHIFTS allFalseVal⟩

/-- C2, counterexample.  The claim says inputs containing a malformed task
(no required skill, or negative priority) are rejected with a descriptive
error before any variable is created.  `generate_schedule` contains no
validation at all: on an input whose only task has an empty required-skill
and priority −3, the model is built, a legitimately optimal solver outcome
exists, and the function returns an ordinary (schedule, unscheduled) pair
instead of failing. -/
theorem claim2_counterexample :
    badTask.priority < 0 ∧ badTask.required_skill = "" ∧
    OptimalResult [] [badTask] DAYS SHIFTS scenAPrefs [] trivialResult ∧
    generate_schedule [] [badTask] DAYS SHIFTS scenAPrefs [] trivialResult
      = ([], [badTask]) := by
  refine ⟨by decide, rfl, ⟨rfl, by decide, ?_⟩, by decide⟩
  intro w _
  simp [objective]

/-- C2, amended.  `generate_schedule` performs no input validation:
malformed tasks (negative priority or empty required skill) flow through
model building, solving and extraction like any other task, and a normal
(schedule, unscheduled) pair is returned — e.g. with no employees, every
task of such an input, malformed ones included, comes back unscheduled. -/
theorem claim2_no_rejection (tasks : List Task) (days shifts : List String)
    (preferences : Nat → Nat → Int) (rules : List (String × Int)) (res : SolverResult)
    (hbad : ∃ t ∈ tasks, t.priority < 0 ∨ t.required_skill = "") :
    generate_schedule [] tasks days shifts preferences rules res = ([], tasks) := by
  cases hok : res.ok
  · exact generate_schedule_not_ok [] tasks days shifts preferences rules res hok
  · have h1 := generate_schedule_fst_ok [] tasks days shifts preferences rules res hok
    have h2 := generate_schedule_snd_ok [] tasks days shifts preferences rules res hok
    have hsched : extractSchedule [] tasks days shifts res.val = [] := by
      simp [extractSchedule]
    rw [hsched] at h1 h2
    have hfilter : (tasks.filter fun t =>
        ((tasks.map fun t' => t'.id).contains t.id) &&
          !((([] : List ScheduleEntry).map fun ent => ent.task_id).contains t.id)) = tasks := by
      apply List.filter_eq_self.mpr
      intro t ht
      simp [List.mem_map]
      exact ⟨t, ht, rfl⟩
    exact Prod.ext h1 (h2.trans hfilter)

/-- C2, witness for the amended theorem at the malformed task. -/
theorem claim2_no_rejection_witness :
    (∃ t ∈ [badTask], t.priority < 0 ∨ t.required_skill = "") ∧
    generate_schedule [] [badTask] DAYS SHIFTS scenAPrefs [] trivialResult = ([], [badTask]) :=
  ⟨by decide,
    claim2_no_rejection [badTask] DAYS SHIFTS scenAPrefs [] trivialResult (by decide)⟩

/-- C3.  For every input and every solver outcome satisfying CP-SAT's
soundness contract, each entry of the returned schedule is generated by an
eligible pair: the generating employee record holds the generating task's
required skill, and the entry's day is not in that employee's
unavailable-day set (skill gate, lines 28-33; availability gate, lines
36-41 of `solver.py`). -/
theorem claim3_gates (employees : List Employee) (tasks : List Task)
    (days shifts : List String) (preferences : Nat → Nat → Int)
    (rules : List (String × Int)) (res : SolverResult)
    (hvalid : ValidResult employees tasks days shifts rules res) :
    ∀ ent ∈ (generate_schedule employees tasks days shifts preferences rules res).1,
      ∃ emp ∈ employees, ∃ task ∈ tasks,
        ent.employee_id = emp.id ∧ ent.employee_name = emp.name ∧
        ent.task_id = task.id ∧ ent.task_name = task.name ∧
        task.required_skill ∈ emp.skills ∧ ent.day ∉ emp.unavailable_days := by
  intro ent hent
  cases hok : res.ok
  · rw [generate_schedule_not_ok employees tasks days shifts preferences rules res hok] at hent
    simp at hent
  · rw [generate_schedule_fst_ok employees tasks days shifts preferences rules res hok] at hent
    have hfeas := hvalid hok
    rcases mem_extractSchedule.mp hent with ⟨d, hd, s, hs, e, he, t, ht, hv, rfl⟩
    refine ⟨e, he, t, ht, rfl, rfl, rfl, rfl, ?_, ?_⟩
    · by_contra hskill
      have hz := hfeas.2.1 e he d hd s hs t ht hskill
      rw [hz] at hv
      exact Bool.noConfusion hv
    · intro hday
      have hz := hfeas.2.2.1 e he d hday hd s hs t ht
      rw [hz] at hv
      exact Bool.noConfusion hv

/-- C3, witness at Scenario A's input and its Monday-morning placement. -/
theorem claim3_gates_witness :
    ValidResult [scenAEmployee] [scenATask] DAYS SHIFTS scenARules
      { ok := true, val := scenAVal } ∧
    ∀ ent ∈ (generate_schedule [scenAEmployee] [scenATask] DAYS SHIFTS scenAPrefs scenARules
        { ok := true, val := scenAVal }).1,
      ∃ emp ∈ [scenAEmployee], ∃ task ∈ [scenATask],
        ent.employee_id = emp.id ∧ ent.employee_name = emp.name ∧
        ent.task_id = task.id ∧ ent.task_name = task.name ∧
        task.required_skill ∈ emp.skills ∧ ent.day ∉ emp.unavailable_days :=
  ⟨fun _ => by decide,
    claim3_gates [scenAEmployee] [scenATask] DAYS SHIFTS scenAPrefs scenARules
      { ok := true, val := scenAVal } (fun _ => by decide)⟩

/-- C6.  For every input and solver outcome, the task ids of the returned
schedule and the ids of the returned unscheduled list partition the set of
all input task ids (their union is the id set and they are disjoint); and
when the solver status is neither OPTIMAL nor FEASIBLE, the result is the
empty schedule together with the entire original task list (line 103 of
`solver.py`). -/
theorem claim6_partition (employees : List Employee) (tasks : List Task)
    (days shifts : List String) (preferences : Nat → Nat → Int)
    (rules : List (String × Int)) (res : SolverResult) (i : Nat) :
    ((i ∈ ((generate_schedule employees tasks days shifts preferences rules res).1.map
            fun ent => ent.task_id) ∨
      i ∈ ((generate_schedule employees tasks days shifts preferences rules res).2.map
            fun t => t.id)) ↔
        i ∈ tasks.map fun t => t.id) ∧
    ¬(i ∈ ((generate_schedule employees tasks days shifts preferences rules res).1.map
            fun ent => ent.task_id) ∧
      i ∈ ((generate_schedule employees tasks days shifts preferences rules res).2.map
            fun t => t.id)) ∧
    (res.ok = false →
      generate_schedule employees tasks days shifts preferences rules res = ([], tasks)) := by
  cases hok : res.ok
  · rw [generate_schedule_not_ok employees tasks days shifts preferences rules res hok]
    exact ⟨by simp, by simp, fun _ => rfl⟩
  · rw [generate_schedule_fst_ok employees tasks days shifts preferences rules res hok,
      generate_schedule_snd_ok employees tasks days shifts preferences rules res hok]
    refine ⟨?_, ?_, fun hfalse => Bool.noConfusion hfalse⟩
    · constructor
      · rintro (hsch | huns)
        · rcases List.mem_map.mp hsch with ⟨ent, hent, rfl⟩
          rcases mem_extractSchedule.mp hent with ⟨d, _, s, _, e, _, t, ht, _, rfl⟩
          exact List.mem_map.mpr ⟨t, ht, rfl⟩
        · rcases List.mem_map.mp huns with ⟨t, htf, rfl⟩
          exact List.mem_map.mpr ⟨t, List.mem_of_mem_filter htf, rfl⟩
      · intro hall
        rcases List.mem_map.mp hall with ⟨t, ht, rfl⟩
        by_cases hassigned : t.id ∈ (extractSchedule employees tasks days shifts res.val).map
            fun ent => ent.task_id
        · exact Or.inl hassigned
        · refine Or.inr (List.mem_map.mpr ⟨t, ?_, rfl⟩)
          apply List.mem_filter.mpr
          refine ⟨ht, ?_⟩
          simp only [Bool.and_eq_true, Bool.not_eq_true']
          constructor
          · simp only [List.contains_iff_exists_mem_beq]
            exact ⟨t.id, List.mem_map.mpr ⟨t, ht, rfl⟩, by simp⟩
          · rw [Bool.eq_false_iff]
            intro hcontains
            apply hassigned
            simpa using hcontains
    · rintro ⟨hsch, huns⟩
      rcases List.mem_map.mp huns with ⟨t, htf, hid⟩
      have hpred := (List.mem_filter.mp htf).2
      simp only [Bool.and_eq_true, Bool.not_eq_true'] at hpred
      have hnotin := hpred.2
      rw [Bool.eq_false_iff] at hnotin
      apply hnotin
      subst hid
      simpa using hsch

/-- C7.  For every input and solver outcome, the returned schedule is a
sublist of the canonical grid enumeration — day-major, then shift, then
employee, then task, each following its input sequence's order — which is
exactly the iteration order of the extraction loops at lines 83-86 of
`solver.py`; and the returned unscheduled list is a sublist of the original
task list, hence in original task order, not placement order. -/
theorem claim7_ordering (employees : List Employee) (tasks : List Task)
    (days shifts : List String) (preferences : Nat → Nat → Int)
    (rules : List (String × Int)) (res : SolverResult) :
    ((generate_schedule employees tasks days shifts preferences rules res).1.Sublist
        (canonicalGrid employees tasks days shifts)) ∧
    ((generate_schedule employees tasks days shifts preferences rules res).2.Sublist tasks) := by
  cases hok : res.ok
  · rw [generate_schedule_not_ok employees tasks days shifts preferences rules res hok]
    exact ⟨List.nil_sublist _, List.Sublist.refl _⟩
  · constructor
    · rw [generate_schedule_fst_ok employees tasks days shifts preferences rules res hok]
      unfold extractSchedule canonicalGrid
      apply flatMap_sublist_flatMap
      intro d _
      apply flatMap_sublist_flatMap
      intro s _
      apply flatMap_sublist_flatMap
      intro e _
      exact filterMap_ite_sublist_map _ _ _
    · rw [generate_schedule_snd_ok employees tasks days shifts preferences rules res hok]
      exact List.filter_sublist _

/-- C4.  For every input whose task ids are pairwise distinct (the data
model's identity invariant) and every solver outcome satisfying CP-SAT's
soundness contract, each task's id is referenced by at most one returned
schedule entry: the `AddAtMostOne` constraint at lines 21-25 of `solver.py`
caps the placement sum, and the extraction emits exactly that many
entries. -/
theorem claim4_at_most_once (employees : List Employee) (tasks : List Task)
    (days shifts : List String) (preferences : Nat → Nat → Int)
    (rules : List (String × Int)) (res : SolverResult)
    (hvalid : ValidResult employees tasks days shifts rules res)
    (hnd : (tasks.map fun t => t.id).Nodup) :
    ∀ task ∈ tasks,
      ((generate_schedule employees tasks days shifts preferences rules res).1.countP
          fun ent => ent.task_id == task.id) ≤ 1 := by
  intro task htask
  cases hok : res.ok
  · rw [generate_schedule_not_ok employees tasks days shifts preferences rules res hok]
    simp
  · rw [generate_schedule_fst_ok employees tasks days shifts preferences rules res hok]
    rw [countP_schedule_by_task employees tasks days shifts res.val task.id hnd
      (List.mem_map.mpr ⟨task, htask, rfl⟩)]
    exact (hvalid hok).1 task htask

/-- C4, witness at Scenario A's input. -/
theorem claim4_at_most_once_witness :
    ValidResult [scenAEmployee] [scenATask] DAYS SHIFTS scenARules
      { ok := true, val := scenAVal } ∧
    (([scenATask].map fun t => t.id).Nodup) ∧
    ∀ task ∈ [scenATask],
      ((generate_schedule [scenAEmployee] [scenATask] DAYS SHIFTS scenAPrefs scenARules
          { ok := true, val := scenAVal }).1.countP
          fun ent => ent.task_id == task.id) ≤ 1 :=
  ⟨fun _ => by decide, by decide,
    claim4_at_most_once [scenAEmployee] [scenATask] DAYS SHIFTS scenAPrefs scenARules
      { ok := true, val := scenAVal } (fun _ => by decide) (by decide)⟩

/-- C5.  For every input whose employee ids are pairwise distinct, whose
rules map carries an explicit (non-negative, per the spec's
positive-integer contract) `max_shifts_per_week` value, and every solver
outcome satisfying CP-SAT's soundness contract, the number of returned
schedule entries referencing each employee is at most the configured cap
(weekly-cap constraint, lines 51-59 of `solver.py`). -/
theorem claim5_weekly_cap (employees : List Employee) (tasks : List Task)
    (days shifts : List String) (preferences : Nat → Nat → Int)
    (rules : List (String × Int)) (res : SolverResult) (cap : Int)
    (hvalid : ValidResult employees tasks days shifts rules res)
    (hnd : (employees.map fun e => e.id).Nodup)
    (hkey : rules.lookup "max_shifts_per_week" = some cap) (hcap : 0 ≤ cap) :
    ∀ emp ∈ employees,
      (((generate_schedule employees tasks days shifts preferences rules res).1.countP
          fun ent => ent.employee_id == emp.id) : Int) ≤ cap := by
  intro emp hemp
  cases hok : res.ok
  · rw [generate_schedule_not_ok employees tasks days shifts preferences rules res hok]
    simpa using hcap
  · rw [generate_schedule_fst_ok employees tasks days shifts preferences rules res hok]
    rw [countP_schedule_by_employee employees tasks days shifts res.val emp.id hnd
      (List.mem_map.mpr ⟨emp, hemp, rfl⟩)]
    have h5 := (hvalid hok).2.2.2.2 emp hemp
    rwa [maxShifts, hkey, Option.getD_some] at h5

/-- C5, witness at Scenario A's input with its explicit cap of 7. -/
theorem claim5_weekly_cap_witness :
    ValidResult [scenAEmployee] [scenATask] DAYS SHIFTS scenARules
      { ok := true, val := scenAVal } ∧
    (([scenAEmployee].map fun e => e.id).Nodup) ∧
    (List.lookup "max_shifts_per_week" scenARules = some 7) ∧
    ((0:Int) ≤ 7) ∧
    ∀ emp ∈ [scenAEmployee],
      (((generate_schedule [scenAEmployee] [scenATask] DAYS SHIFTS scenAPrefs scenARules
          { ok := true, val := scenAVal }).1.countP
          fun ent => ent.employee_id == emp.id) : Int) ≤ 7 :=
  ⟨fun _ => by decide, by decide, by decide, by decide,
    claim5_weekly_cap [scenAEmployee] [scenATask] DAYS SHIFTS scenAPrefs scenARules
      { ok := true, val := scenAVal } 7 (fun _ => by decide) (by decide) (by decide) (by decide)⟩

/-- The length of the extracted schedule as a grid sum of per-slot counts. -/
theorem length_extractSchedule (employees : List Employee) (tasks : List Task)
    (days shifts : List String) (v : Valuation) :
    (extractSchedule employees tasks days shifts v).length
      = (days.map fun d => ((shifts.map fun s => ((employees.map fun e =>
          (tasks.countP fun t => v e.id d s t.id)).sum)).sum)).sum := by
  have hlen : (extractSchedule employees tasks days shifts v).countP (fun _ => true)
      = (extractSchedule employees tasks days shifts v).length := by
    rw [List.countP_true]
  rw [← hlen]
  unfold extractSchedule
  simp only [List.countP_flatMap, Function.comp_def, countP_filterMap_ite, Bool.and_true]

/-- On Scenario A's input the posted objective of any valuation equals its
placement count for the single task (priority 1, empty preference map). -/
theorem scenA_objective_eq (v : Valuation) :
    objective [scenAEmployee] [scenATask] DAYS SHIFTS scenAPrefs v
      = (taskPlacementCount [scenAEmployee] DAYS SHIFTS v scenATask.id : Int) := by
  simp [objective, taskPlacementCount, scenAPrefs, scenAEmployee, scenATask, indicator,
    Nat.cast_list_sum, List.map_map, Function.comp_def, Nat.cast_ite]

/-- On Scenario A's input the extracted schedule's length equals the single
task's placement count. -/
theorem scenA_length_eq (v : Valuation) :
    (extractSchedule [scenAEmployee] [scenATask] DAYS SHIFTS v).length
      = taskPlacementCount [scenAEmployee] DAYS SHIFTS v scenATask.id := by
  rw [length_extractSchedule]
  simp [scenAEmployee, scenATask, taskPlacementCount, indicator, List.countP_cons]

/-- On Scenario A's input no feasible valuation scores above 1: the
at-most-one constraint bounds the single task's placements. -/
theorem scenA_objective_le_one (v : Valuation)
    (hfeas : Feasible [scenAEmployee] [scenATask] DAYS SHIFTS scenARules v) :
    objective [scenAEmployee] [scenATask] DAYS SHIFTS scenAPrefs v ≤ 1 := by
  have h1 := hfeas.1 scenATask (List.mem_singleton.mpr rfl)
  rw [scenA_objective_eq v]
  exact_mod_cast h1

/-- C8.  On Scenario A's input (one employee with skill set `{"A"}` and no
unavailable days, one task requiring `"A"` with priority 1, the fixed
7-day/2-shift grid, empty preference map, `max_shifts_per_week = 7`), any
solver outcome satisfying CP-SAT's optimality contract yields exactly one
schedule entry and an empty unscheduled list. -/
theorem claim8_scenarioA (res : SolverResult)
    (hopt : OptimalResult [scenAEmployee] [scenATask] DAYS SHIFTS scenAPrefs scenARules res) :
    ((generate_schedule [scenAEmployee] [scenATask] DAYS SHIFTS scenAPrefs scenARules
        res).1.length = 1) ∧
    ((generate_schedule [scenAEmployee] [scenATask] DAYS SHIFTS scenAPrefs scenARules
        res).2 = []) := by
  obtain ⟨hok, hfeas, hmax⟩ := hopt
  have hub : objective [scenAEmployee] [scenATask] DAYS SHIFTS scenAPrefs res.val ≤ 1 :=
    scenA_objective_le_one res.val hfeas
  have hlb : (1:Int) ≤ objective [scenAEmployee] [scenATask] DAYS SHIFTS scenAPrefs res.val := by
    have hf1 : Feasible [scenAEmployee] [scenATask] DAYS SHIFTS scenARules scenAVal := by decide
    have h1 := hmax scenAVal hf1
    have h2 : objective [scenAEmployee] [scenATask] DAYS SHIFTS scenAPrefs scenAVal = 1 := by
      decide
    rw [h2] at h1
    exact h1
  have hobj := le_antisymm hub hlb
  have hcount : taskPlacementCount [scenAEmployee] DAYS SHIFTS res.val scenATask.id = 1 := by
    have he := scenA_objective_eq res.val
    rw [he] at hobj
    exact_mod_cast hobj
  have hlen : (extractSchedule [scenAEmployee] [scenATask] DAYS SHIFTS res.val).length = 1 := by
    rw [scenA_length_eq]
    exact hcount
  constructor
  · rw [generate_schedule_fst_ok [scenAEmployee] [scenATask] DAYS SHIFTS scenAPrefs scenARules
      res hok]
    exact hlen
  · rw [generate_schedule_snd_ok [scenAEmployee] [scenATask] DAYS SHIFTS scenAPrefs scenARules
      res hok]
    obtain ⟨ent, hent⟩ := List.length_eq_one.mp hlen
    have hmem : ent ∈ extractSchedule [scenAEmployee] [scenATask] DAYS SHIFTS res.val := by
      rw [hent]
      exact List.mem_singleton.mpr rfl
    rcases mem_extractSchedule.mp hmem with ⟨d, _, s, _, e, _, t, ht, _, hentEq⟩
    have ht' : t = scenATask := List.mem_singleton.mp ht
    rw [hent, hentEq, ht']
    simp [mkEntry, scenATask]

/-- C8, witness: the Monday-morning placement is such an optimal outcome. -/
theorem claim8_scenarioA_witness :
    OptimalResult [scenAEmployee] [scenATask] DAYS SHIFTS scenAPrefs scenARules
      { ok := true, val := scenAVal } ∧
    (((generate_schedule [scenAEmployee] [scenATask] DAYS SHIFTS scenAPrefs scenARules
        { ok := true, val := scenAVal }).1.length = 1) ∧
     ((generate_schedule [scenAEmployee] [scenATask] DAYS SHIFTS scenAPrefs scenARules
        { ok := true, val := scenAVal }).2 = [])) :=
  have hopt : OptimalResult [scenAEmployee] [scenATask] DAYS SHIFTS scenAPrefs scenARules
      { ok := true, val := scenAVal } :=
    ⟨rfl, by decide, fun w hw => le_trans (scenA_objective_le_one w hw) (by decide)⟩
  ⟨hopt, claim8_scenarioA { ok := true, val := scenAVal } hopt⟩

/-- Raising the preference map pointwise can only raise the posted
objective, since every indicator coefficient is non-negative. -/
theorem objective_mono_pref (employees : List Employee) (tasks : List Task)
    (days shifts : List String) (p q : Nat → Nat → Int)
    (hpq : ∀ e t, p e t ≤ q e t) (v : Valuation) :
    objective employees tasks days shifts p v
      ≤ objective employees tasks days shifts q v := by
  unfold objective
  refine add_le_add le_rfl ?_
  apply List.sum_le_sum
  intro e _
  apply List.sum_le_sum
  intro d _
  apply List.sum_le_sum
  intro s _
  apply List.sum_le_sum
  intro t _
  exact mul_le_mul_of_nonneg_left (hpq e.id t.id) (Int.natCast_nonneg _)

/-- C9.  Increasing one (employee id, task id) preference score by a
positive amount, all else fixed, never decreases the achieved objective
value: an optimal outcome of the bumped model scores at least what the
original optimal outcome scored, because the original solution stays
feasible and its bumped score is no smaller. -/
theorem claim9_pref_monotone (employees : List Employee) (tasks : List Task)
    (days shifts : List String) (preferences : Nat → Nat → Int)
    (rules : List (String × Int)) (empId taskId : Nat) (delta : Int)
    (hdelta : 0 < delta) (res resB : SolverResult)
    (hopt : OptimalResult employees tasks days shifts preferences rules res)
    (hoptB : OptimalResult employees tasks days shifts
      (bumpPref preferences empId taskId delta) rules resB) :
    objective employees tasks days shifts preferences res.val
      ≤ objective employees tasks days shifts
          (bumpPref preferences empId taskId delta) resB.val := by
  have hpq : ∀ e t, preferences e t ≤ bumpPref preferences empId taskId delta e t := by
    intro e t
    unfold bumpPref
    by_cases h : e = empId ∧ t = taskId
    · rw [if_pos h]
      linarith
    · rw [if_neg h]
  have h1 := objective_mono_pref employees tasks days shifts preferences
    (bumpPref preferences empId taskId delta) hpq res.val
  have h2 := hoptB.2.2 res.val hopt.2.1
  exact le_trans h1 h2

/-- C9, witness at the empty instance, whose unique valuation is optimal on
both sides of the bump. -/
theorem claim9_pref_monotone_witness :
    ((0:Int) < 1) ∧
    OptimalResult [] [] DAYS SHIFTS scenAPrefs [] trivialResult ∧
    OptimalResult [] [] DAYS SHIFTS (bumpPref scenAPrefs 0 0 1) [] trivialResult ∧
    (objective [] [] DAYS SHIFTS scenAPrefs trivialResult.val
      ≤ objective [] [] DAYS SHIFTS (bumpPref scenAPrefs 0 0 1) trivialResult.val) :=
  have hA : OptimalResult [] [] DAYS SHIFTS scenAPrefs [] trivialResult :=
    ⟨rfl, by decide, fun w _ => by simp [objective]⟩
  have hB : OptimalResult [] [] DAYS SHIFTS (bumpPref scenAPrefs 0 0 1) [] trivialResult :=
    ⟨rfl, by decide, fun w _ => by simp [objective]⟩
  ⟨by decide, hA, hB,
    claim9_pref_monotone [] [] DAYS SHIFTS scenAPrefs [] 0 0 1 (by decide)
      trivialResult trivialResult hA hB⟩

/-- Restricting a bounded quantification over unavailable days to the
in-grid ones changes nothing, because the body is guarded by grid
membership — exactly the `if day in days` guard at line 38 of `solver.py`. -/
theorem forall_filtered_days (u days : List String) (Q : String → Prop) :
    (∀ d ∈ u.filter (fun d => days.contains d), d ∈ days → Q d) ↔
    (∀ d ∈ u, d ∈ days → Q d) := by
  constructor
  · intro h d hd hdays
    exact h d (List.mem_filter.mpr ⟨hd, by simpa using hdays⟩) hdays
  · intro h d hd hdays
    exact h d (List.mem_filter.mp hd).1 hdays

/-- C10.  Unavailable-day entries outside the day grid have no effect and
raise no error: pruning them changes neither the extraction result of
`generate_schedule`, nor the set of feasible valuations, nor the posted
objective — so the model, its solutions, and the returned
(schedule, unscheduled) pair are identical. -/
theorem claim10_out_of_grid (employees : List Employee) (tasks : List Task)
    (days shifts : List String) (preferences : Nat → Nat → Int)
    (rules : List (String × Int)) (res : SolverResult) :
    (generate_schedule (pruneUnavailable employees days) tasks days shifts preferences rules res
      = generate_schedule employees tasks days shifts preferences rules res) ∧
    (∀ v : Valuation,
      Feasible (pruneUnavailable employees days) tasks days shifts rules v ↔
        Feasible employees tasks days shifts rules v) ∧
    (∀ v : Valuation,
      objective (pruneUnavailable employees days) tasks days shifts preferences v
        = objective employees tasks days shifts preferences v) := by
  have hext : ∀ v : Valuation,
      extractSchedule (pruneUnavailable employees days) tasks days shifts v
        = extractSchedule employees tasks days shifts v := by
    intro v
    unfold extractSchedule pruneUnavailable
    simp [List.flatMap_map, mkEntry]
  have hc1 : ∀ (v : Valuation) (tid : Nat),
      taskPlacementCount (pruneUnavailable employees days) days shifts v tid
        = taskPlacementCount employees days shifts v tid := by
    intro v tid
    unfold taskPlacementCount pruneUnavailable
    rw [List.map_map]
    rfl
  refine ⟨?_, ?_, ?_⟩
  · unfold generate_schedule
    rw [hext res.val]
  · intro v
    unfold Feasible
    refine and_congr ?_ (and_congr ?_ (and_congr ?_ (and_congr ?_ ?_)))
    · simp only [hc1]
    · rw [pruneUnavailable, List.forall_mem_map]
    · rw [pruneUnavailable, List.forall_mem_map]
      apply forall_congr'
      intro e
      apply imp_congr_right
      intro _
      exact forall_filtered_days e.unavailable_days days
        (fun d => ∀ shift ∈ shifts, ∀ task ∈ tasks, v e.id d shift task.id = false)
    · rw [pruneUnavailable, List.forall_mem_map]
    · rw [pruneUnavailable, List.forall_mem_map]
  · intro v
    unfold objective pruneUnavailable
    rw [List.map_map, List.map_map]
    rfl

end Scheduler
